import Mathlib

/-!
Shallow embedding of `src/mlpack/methods/linear_svm/linear_svm_main.cpp`.

This file models the command-line glue of the mlpack linear SVM executable:
CLI parameter validation, training-label resolution, class-count derivation
(`NumberOfClasses`), dispatch to the external training and classification
routines, and the per-class accuracy report.  External collaborators
(`LinearSVM::Train`, `LinearSVM::Classify`, the default-constructed model and
`omp_get_max_threads`) are abstracted as explicit parameters of the run
function, so every theorem quantifies over their behaviour.

Modelling conventions:
* `size_t` arithmetic is `Nat`, with an explicit wrap-around (`sub1`) where
  the source can underflow (`model->Parameters().n_rows - 1`).
* IEEE doubles flow only through sign checks and exact small-integer
  divisions here; they are modelled as rationals.  A division whose divisor
  is zero, which yields NaN in the source, is modelled as `none`.
* `Log::Fatal` terminations are `Except.error` values tagged with the check
  that fired; an out-of-bounds `std::vector` index (undefined behaviour in
  the source) and an out-of-bounds `arma` element access (which throws) get
  their own tags.
-/

set_option autoImplicit false

namespace LinearSVMMain

/-- Dense matrix: `rows` lists the matrix rows (arma convention in this
program: rows are feature dimensions, columns are sample points). -/
structure Matrix where
  rows : List (List ℚ)
deriving DecidableEq

/-- Row count (`m.n_rows`). -/
def Matrix.nRows (m : Matrix) : Nat := m.rows.length

/-- Column count (`m.n_cols`); the matrices arma loads are rectangular, so
the first row's length is the column count. -/
def Matrix.nCols (m : Matrix) : Nat := (m.rows.headD []).length

/-- Removal of the last row: `trainingSet.shed_row(trainingSet.n_rows - 1)`. -/
def Matrix.shedLastRow (m : Matrix) : Matrix := ⟨m.rows.dropLast⟩

/-- The last row, `trainingSet.row(trainingSet.n_rows - 1)`. -/
def Matrix.lastRow (m : Matrix) : List ℚ := m.rows.getLastD []

/-- One entry of `arma::conv_to<arma::Row<size_t>>::from(...)`: truncation of
a non-negative double to `size_t` (negative inputs are undefined in the
source; they are clamped to 0 here). -/
def ratToNat (q : ℚ) : Nat := q.floor.toNat

/-- Subtraction `n - 1` on `size_t`: wraps around when `n = 0`. -/
def sub1 (n : Nat) : Nat := (n + (2 ^ 64 - 1)) % 2 ^ 64

/-- Ceiling division `std::ceil((float) cols / threads)` from the ParallelSGD
configuration, idealised to exact natural ceiling division. -/
def ceilDiv (a b : Nat) : Nat := (a + b - 1) / b

/-- The externally defined `LinearSVM<>` model: the fields the glue code sets
(`Lambda()`, `Delta()`, `FitIntercept()`, `NumClasses()`) plus the learned
parameter matrix read back by the dimensionality check. -/
structure Model where
  lambda : ℚ
  delta : ℚ
  fitIntercept : Bool
  numClasses : Nat
  parameters : Matrix
deriving DecidableEq

/-- The optimizer configuration handed to `LinearSVM::Train`: either
`ens::L_BFGS` (max iterations, min gradient norm) or
`ens::ParallelSGD<ens::ConstantStep>` (max iterations, batch size derived
from the column count and thread count, tolerance, shuffle flag, step
size). -/
inductive OptSpec where
  | lbfgs (maxIterations : Nat) (minGradientNorm : ℚ)
  | psgd (maxIterations : Nat) (batchSize : Nat) (tolerance : ℚ)
      (shuffle : Bool) (stepSize : ℚ)
deriving DecidableEq

/-- The external routines the glue dispatches to, abstracted as functions:
the default-constructed model (`new LinearSVM<>`), `LinearSVM::Train`
(returning the mutated model), and the two `LinearSVM::Classify` overloads
(labels, class scores). -/
structure Externals where
  defaultModel : Model
  train : Model → Matrix → List Nat → Nat → OptSpec → Model
  classifyLabels : Model → Matrix → List Nat
  classifyScores : Model → Matrix → Matrix

/-- The CLI parameters of the program.  Optional inputs are `Option`; the
numeric parameters carry their (possibly defaulted) values; `Int` models the
C++ `int` parameters, `ℚ` the doubles; the three output-request booleans
model `CLI::HasParam` on the output parameters. -/
structure Params where
  training : Option Matrix
  labels : Option (List Nat)
  lambda : ℚ
  delta : ℚ
  numberOfClasses : Int
  noIntercept : Bool
  optimizer : String
  tolerance : ℚ
  maxIterations : Int
  stepSize : ℚ
  shuffle : Bool
  inputModel : Option Model
  test : Option Matrix
  testLabels : Option (List Nat)
  scoreRequested : Bool
  predictionsRequested : Bool
  outputModelRequested : Bool

/-- The distinct `Log::Fatal` terminations of the program, plus tags for the
two kinds of out-of-range element access in the accuracy block: `arma`
element access throws on an out-of-range index, while `std::vector`
subscripting is undefined behaviour. -/
inductive RunError where
  | noTrainingOrModel
  | badMaxIterations
  | badTolerance
  | badOptimizer
  | badLambda
  | badNumClasses
  | badDelta
  | badStepSize
  | labelSizeMismatch
  | tooFewRows
  | testDimMismatch
  | testLabelsSizeMismatch
  | armaOutOfBounds
  | vectorOutOfBounds
deriving DecidableEq

/-- What a successful run produces: the saved predictions and score matrix
(when requested), the logged accuracy report (per-class accuracies and
aggregate accuracy), and the model assigned to `output_model`. -/
structure RunResult where
  predictionsOut : Option (List Nat)
  scoreOut : Option Matrix
  accuracy : Option (List (Option ℚ) × Option ℚ)
  outputModel : Model
deriving DecidableEq

/-- Lines 165-203: the `Require*` validation block, in source order.  Each
`RequireParamValue` call fatals exactly when its predicate `x >= 0` is
false. -/
def validate (p : Params) : Except RunError Unit :=
  if p.training = none ∧ p.inputModel = none then .error .noTrainingOrModel
  else if p.maxIterations < 0 then .error .badMaxIterations
  else if p.tolerance < 0 then .error .badTolerance
  else if ¬(p.optimizer = "lbfgs" ∨ p.optimizer = "psgd") then
    .error .badOptimizer
  else if p.lambda < 0 then .error .badLambda
  else if p.numberOfClasses < 0 then .error .badNumClasses
  else if p.delta < 0 then .error .badDelta
  else if p.stepSize < 0 then .error .badStepSize
  else .ok ()

/-- Lines 239-261: obtain the training matrix and label row.  With a separate
`labels` parameter the sample counts must match; without one the last row of
the training matrix becomes the labels and is shed; without `training` both
stay empty. -/
def resolveLabels (p : Params) : Except RunError (Matrix × List Nat) :=
  match p.training, p.labels with
  | some ts, some ls =>
      if ts.nCols ≠ ls.length then .error .labelSizeMismatch
      else .ok (ts, ls)
  | some ts, none =>
      if ts.nRows < 2 then .error .tooFewRows
      else .ok (ts.shedLastRow, ts.lastRow.map ratToNat)
  | none, _ => .ok (⟨[]⟩, [])

/-- Lines 390-403: the class count is the given one unless that is zero, in
which case it is the size of a `std::set` built from the labels. -/
def NumberOfClasses (numClasses : Nat) (labels : List Nat) : Nat :=
  if numClasses = 0 then labels.toFinset.card else numClasses

/-- Line 263: the class count used by the run. -/
def runNumClasses (p : Params) (labels : List Nat) : Nat :=
  NumberOfClasses p.numberOfClasses.toNat labels

/-- Lines 268-309: when `training` was passed, set the model fields and train
with the selected optimizer; otherwise keep the loaded (or fresh) model. -/
def trainedModel (threads : Nat) (ext : Externals) (p : Params)
    (trainingSet : Matrix) (labels : List Nat) (numClasses : Nat) : Model :=
  let model0 := p.inputModel.getD ext.defaultModel
  if p.training.isSome then
    let m1 := { model0 with
                  lambda := p.lambda
                  delta := p.delta
                  fitIntercept := !p.noIntercept
                  numClasses := numClasses }
    if p.optimizer = "lbfgs" then
      ext.train m1 trainingSet labels numClasses
        (.lbfgs p.maxIterations.toNat p.tolerance)
    else if p.optimizer = "psgd" then
      ext.train m1 trainingSet labels numClasses
        (.psgd p.maxIterations.toNat (ceilDiv trainingSet.nCols threads)
          p.tolerance (!p.shuffle) p.stepSize)
    else m1
  else model0

/-- The model the run trains (or loads), with the class count of line 263. -/
def runModel (threads : Nat) (ext : Externals) (p : Params)
    (trainingSet : Matrix) (labels : List Nat) : Model :=
  trainedModel threads ext p trainingSet labels (runNumClasses p labels)

/-- Increment `++v[i]` on a `std::vector<size_t>` (callers guard `i` in range). -/
def bump (v : List Nat) (i : Nat) : List Nat := v.set i (v.getD i 0 + 1)

/-- Lines 353-362, one step per sample: `if (predictions(i) == testLabels(i))
++bingoLabels[testLabels(i)]; ++labelSize[testLabels(i)];`.  A test label not
below the vector length `numClasses` is an out-of-bounds subscript, i.e.
undefined behaviour, modelled as `none`. -/
def accLoopAux (nc : Nat) (st : List Nat × List Nat) :
    List (Nat × Nat) → Option (List Nat × List Nat)
  | [] => some st
  | pl :: rest =>
      if pl.2 < nc then
        accLoopAux nc
          (if pl.1 = pl.2 then bump st.1 pl.2 else st.1, bump st.2 pl.2) rest
      else none

/-- The whole tally loop, starting from the zero-initialised `bingoLabels`
and `labelSize` vectors of length `numClasses`; the list pairs each
prediction with the test label of the same index. -/
def accLoop (nc : Nat) (z : List (Nat × Nat)) :
    Option (List Nat × List Nat) :=
  accLoopAux nc (List.replicate nc 0, List.replicate nc 0) z

/-- Line 368, the division `bingoLabels[i] / (double) labelSize[i]`; `none` is the NaN
produced when `labelSize[i]` is zero. -/
def perClassAcc (b s : List Nat) (i : Nat) : Option ℚ :=
  if s.getD i 0 = 0 then none
  else some ((b.getD i 0 : ℚ) / (s.getD i 0 : ℚ))

/-- Line 374, the division `totalBingo / (double) predictions.n_elem`; `none` is the NaN
produced when there are no predictions. -/
def aggregateAcc (total n : Nat) : Option ℚ :=
  if n = 0 then none else some ((total : ℚ) / (n : ℚ))

/-- Lines 353-375: the accuracy report.  The loop runs over the prediction
indices, so `predictions(i)`/`testLabels(i)` element accesses throw if the
predictions outnumber the test labels; otherwise the tally loop runs and the
per-class and aggregate accuracies are computed. -/
def accuracyPhase (nc : Nat) (preds tls : List Nat) :
    Except RunError (List (Option ℚ) × Option ℚ) :=
  if tls.length < preds.length then .error .armaOutOfBounds
  else
    match accLoop nc (preds.zip tls) with
    | none => .error .vectorOutOfBounds
    | some (b, s) =>
        .ok ((List.range nc).map (perClassAcc b s),
             aggregateAcc b.sum preds.length)

/-- Lines 310-385: the test block.  Dimensionality check against
`Parameters().n_rows - 1` (with `size_t` wrap-around), optional class
scores, classification, and the optional accuracy report guarded by the
test-label count check of line 345. -/
def testPhase (ext : Externals) (p : Params) (model : Model) (nc : Nat) :
    Except RunError RunResult :=
  match p.test with
  | none => .ok ⟨none, none, none, model⟩
  | some tst =>
      if tst.nRows ≠ sub1 model.parameters.nRows then .error .testDimMismatch
      else
        match p.testLabels with
        | none =>
            .ok ⟨if p.predictionsRequested then
                   some (ext.classifyLabels model tst) else none,
                 if p.scoreRequested then some (ext.classifyScores model tst)
                 else none, none, model⟩
        | some tls =>
            if tst.nCols ≠ tls.length then .error .testLabelsSizeMismatch
            else
              match accuracyPhase nc (ext.classifyLabels model tst) tls with
              | .error e => .error e
              | .ok rep =>
                  .ok ⟨if p.predictionsRequested then
                         some (ext.classifyLabels model tst) else none,
                       if p.scoreRequested then
                         some (ext.classifyScores model tst) else none,
                       some rep, model⟩

/-- The whole of `mlpackMain` (lines 154-388): validation, label resolution,
class-count derivation, training dispatch, and the test block.  `threads` is
`omp_get_max_threads()`; `ext` packages the external mlpack routines. -/
def mlpackMain (threads : Nat) (ext : Externals) (p : Params) :
    Except RunError RunResult :=
  match validate p with
  | .error e => .error e
  | .ok _ =>
      match resolveLabels p with
      | .error e => .error e
      | .ok (ts, labs) =>
          testPhase ext p (runModel threads ext p ts labs)
            (runNumClasses p labs)

/-- A run that ended in `Log::Fatal` (or an out-of-range access). -/
def isFatal (r : Except RunError RunResult) : Bool :=
  match r with
  | .error _ => true
  | .ok _ => false

/-- Spec-side notion used by the claim on class counts: the number of
distinct values in a label list. -/
def distinctCount (l : List Nat) : Nat := l.dedup.length

/-- Number of loop indices whose prediction equals the test label and that
label is `i` (the increments `++bingoLabels[i]` receives). -/
def bingoCount (z : List (Nat × Nat)) (i : Nat) : Nat :=
  z.countP (fun pr => pr.1 == pr.2 && pr.2 == i)

/-- Number of loop indices whose test label is `i` (the increments
`++labelSize[i]` receives). -/
def classCount (z : List (Nat × Nat)) (i : Nat) : Nat :=
  z.countP (fun pr => pr.2 == i)

/-- Concrete external routines used by the concrete runs below: training
returns the model unchanged, classification predicts class 0 for every
column, scores echo the test matrix. -/
def constExternals : Externals where
  defaultModel := ⟨0, 0, true, 0, ⟨[]⟩⟩
  train := fun m _ _ _ _ => m
  classifyLabels := fun _ tst => List.replicate tst.nCols 0
  classifyScores := fun _ tst => tst

/-- Concrete parameter set with no inputs and all-zero numeric values. -/
def baseParams : Params :=
  ⟨none, none, 0, 0, 0, false, "lbfgs", 0, 0, 0, false, none, none, none,
   false, false, false⟩

/-- Concrete pre-trained model with a 2-row parameter matrix. -/
def cexModel : Model := ⟨0, 0, true, 0, ⟨[[0], [0]]⟩⟩

/-- Concrete 2-by-2 training matrix whose last row carries the labels. -/
def trainMat : Matrix := ⟨[[1, 2], [0, 1]]⟩

/-- Concrete training-only run on `trainMat`. -/
def trainParams : Params := { baseParams with training := some trainMat }

/-- Concrete run on a loaded model and a dimension-matching one-point test
set, with no test labels. -/
def dimParams : Params :=
  { baseParams with inputModel := some cexModel, test := some ⟨[[5]]⟩ }

/-- Concrete run on a loaded model, a dimension-matching test set and one
test label, with `number_of_classes` unspecified and no training data, so
the derived class count is 0. -/
def modelOnlyParams : Params :=
  { baseParams with
      inputModel := some cexModel
      test := some ⟨[[5]]⟩
      testLabels := some [0] }

/-- Concrete run with a training/labels count mismatch and a
test/test-labels count mismatch. -/
def mismatchParams : Params :=
  { baseParams with
      training := some trainMat
      labels := some [0]
      test := some ⟨[[5]]⟩
      testLabels := some [0, 1] }

/-! Helper lemmas about the tally-loop embedding. -/

theorem getD_set (v : List Nat) (i j x : Nat) :
    (v.set i x).getD j 0 = if i = j ∧ i < v.length then x else v.getD j 0 := by
  simp only [List.getD_eq_getElem?_getD, List.getElem?_set]
  by_cases hij : i = j
  · subst hij
    by_cases hlt : i < v.length
    · simp [hlt]
    · simp [hlt, List.getElem?_eq_none (by omega : v.length ≤ i)]
  · simp [hij]

theorem bump_length (v : List Nat) (i : Nat) : (bump v i).length = v.length :=
  List.length_set v i _

theorem bump_getD (v : List Nat) (i j : Nat) :
    (bump v i).getD j 0 =
      if i = j ∧ i < v.length then v.getD j 0 + 1 else v.getD j 0 := by
  unfold bump
  rw [getD_set]
  by_cases hij : i = j
  · subst hij; rfl
  · simp [hij]

theorem bump_sum (v : List Nat) (i : Nat) (h : i < v.length) :
    (bump v i).sum = v.sum + 1 := by
  induction v generalizing i with
  | nil => simp at h
  | cons a t ih =>
    cases i with
    | zero =>
      simp only [bump, List.getD_cons_zero, List.set_cons_zero, List.sum_cons]
      omega
    | succ n =>
      have h' : n < t.length := by simpa using h
      have hrec := ih n h'
      simp only [bump, List.getD_cons_succ, List.set_cons_succ,
        List.sum_cons] at hrec ⊢
      omega

theorem getD_replicate (n i : Nat) : (List.replicate n 0).getD i 0 = 0 := by
  induction n generalizing i with
  | zero => simp
  | succ m ih =>
    cases i with
    | zero => simp [List.replicate]
    | succ j => simp [List.replicate, List.getD_cons_succ, ih]

theorem eq_of_getD (u v : List Nat) (hl : u.length = v.length)
    (h : ∀ i, u.getD i 0 = v.getD i 0) : u = v := by
  induction u generalizing v with
  | nil =>
    cases v with
    | nil => rfl
    | cons b w => simp at hl
  | cons a t ih =>
    cases v with
    | nil => simp at hl
    | cons b w =>
      have h0 := h 0
      simp only [List.getD_cons_zero] at h0
      have ht : t = w := by
        refine ih w (by simpa using hl) (fun i => ?_)
        have := h (i + 1)
        simpa only [List.getD_cons_succ] using this
      rw [h0, ht]

theorem accLoopAux_isSome (nc : Nat) (z : List (Nat × Nat)) :
    ∀ st : List Nat × List Nat,
      (accLoopAux nc st z).isSome = true ↔ ∀ pr ∈ z, pr.2 < nc := by
  induction z with
  | nil => intro st; simp [accLoopAux]
  | cons pl rest ih =>
    intro st
    by_cases h : pl.2 < nc
    · rw [accLoopAux, if_pos h, ih]
      simp [h]
    · rw [accLoopAux, if_neg h]
      constructor
      · intro hh; simp at hh
      · intro hall
        exact absurd (hall pl (List.mem_cons_self pl rest)) h

theorem accLoopAux_some (nc : Nat) (z : List (Nat × Nat)) :
    ∀ st : List Nat × List Nat, (∀ pr ∈ z, pr.2 < nc) →
      st.1.length = nc → st.2.length = nc →
      ∃ b s, accLoopAux nc st z = some (b, s) ∧ b.length = nc ∧
        s.length = nc ∧
        b.sum = st.1.sum + z.countP (fun pr => pr.1 == pr.2) ∧
        (∀ i, b.getD i 0 = st.1.getD i 0 + bingoCount z i ∧
              s.getD i 0 = st.2.getD i 0 + classCount z i) := by
  induction z with
  | nil =>
    intro st h hb hs
    exact ⟨st.1, st.2, rfl, hb, hs, by simp,
      fun i => by simp [bingoCount, classCount]⟩
  | cons pl rest ih =>
    intro st h hb hs
    have hl : pl.2 < nc := h pl (List.mem_cons_self pl rest)
    have hrest : ∀ pr ∈ rest, pr.2 < nc :=
      fun pr hpr => h pr (List.mem_cons_of_mem pl hpr)
    have hb' : (if pl.1 = pl.2 then bump st.1 pl.2 else st.1).length = nc := by
      by_cases hpp : pl.1 = pl.2 <;> simp [hpp, bump_length, hb]
    have hs' : (bump st.2 pl.2).length = nc := by
      simp [bump_length, hs]
    obtain ⟨b, s, heq, hbl, hsl, hsum, hent⟩ :=
      ih (if pl.1 = pl.2 then bump st.1 pl.2 else st.1, bump st.2 pl.2)
        hrest hb' hs'
    have hsum' : b.sum = (if pl.1 = pl.2 then bump st.1 pl.2 else st.1).sum
        + rest.countP (fun pr => pr.1 == pr.2) := hsum
    have hent' : ∀ i,
        b.getD i 0 = (if pl.1 = pl.2 then bump st.1 pl.2 else st.1).getD i 0
            + bingoCount rest i ∧
        s.getD i 0 = (bump st.2 pl.2).getD i 0 + classCount rest i := hent
    refine ⟨b, s, ?_, hbl, hsl, ?_, ?_⟩
    · rw [accLoopAux, if_pos hl]
      exact heq
    · have hs1 : (if pl.1 = pl.2 then bump st.1 pl.2 else st.1).sum
          = st.1.sum + (if pl.1 = pl.2 then 1 else 0) := by
        by_cases hpp : pl.1 = pl.2
        · rw [if_pos hpp, if_pos hpp, bump_sum st.1 pl.2 (by rw [hb]; exact hl)]
        · rw [if_neg hpp, if_neg hpp]; omega
      have hcp : (pl :: rest).countP (fun pr : Nat × Nat => pr.1 == pr.2)
          = rest.countP (fun pr : Nat × Nat => pr.1 == pr.2)
            + (if pl.1 = pl.2 then 1 else 0) := by
        rw [List.countP_cons]
        by_cases hpp : pl.1 = pl.2 <;> simp [hpp]
      rw [hcp, hsum', hs1]
      omega
    · intro i
      have hbc : bingoCount (pl :: rest) i
          = bingoCount rest i + (if pl.1 = pl.2 ∧ pl.2 = i then 1 else 0) := by
        unfold bingoCount
        rw [List.countP_cons]
        by_cases h1 : pl.1 = pl.2 <;> by_cases h2 : pl.2 = i <;>
          simp [h1, h2]
      have hcc : classCount (pl :: rest) i
          = classCount rest i + (if pl.2 = i then 1 else 0) := by
        unfold classCount
        rw [List.countP_cons]
        by_cases h2 : pl.2 = i <;> simp [h2]
      have hg1 : (if pl.1 = pl.2 then bump st.1 pl.2 else st.1).getD i 0
          = st.1.getD i 0 + (if pl.1 = pl.2 ∧ pl.2 = i then 1 else 0) := by
        by_cases h1 : pl.1 = pl.2
        · rw [if_pos h1, bump_getD]
          by_cases h2 : pl.2 = i
          · rw [if_pos ⟨h2, by rw [hb]; exact hl⟩, if_pos ⟨h1, h2⟩]
          · rw [if_neg (by tauto), if_neg (by tauto)]; omega
        · rw [if_neg h1, if_neg (by tauto)]; omega
      have hg2 : (bump st.2 pl.2).getD i 0
          = st.2.getD i 0 + (if pl.2 = i then 1 else 0) := by
        rw [bump_getD]
        by_cases h2 : pl.2 = i
        · rw [if_pos ⟨h2, by rw [hs]; exact hl⟩, if_pos h2]
        · rw [if_neg (by tauto), if_neg h2]; omega
      refine ⟨?_, ?_⟩
      · rw [(hent' i).1, hg1, hbc]
        omega
      · rw [(hent' i).2, hg2, hcc]
        omega

theorem accLoop_isSome (nc : Nat) (z : List (Nat × Nat)) :
    (accLoop nc z).isSome = true ↔ ∀ pr ∈ z, pr.2 < nc :=
  accLoopAux_isSome nc z _

theorem accLoop_some (nc : Nat) (z : List (Nat × Nat))
    (h : ∀ pr ∈ z, pr.2 < nc) :
    ∃ b s, accLoop nc z = some (b, s) ∧ b.length = nc ∧ s.length = nc ∧
      b.sum = z.countP (fun pr => pr.1 == pr.2) ∧
      (∀ i, b.getD i 0 = bingoCount z i ∧ s.getD i 0 = classCount z i) := by
  obtain ⟨b, s, heq, hbl, hsl, hsum, hent⟩ :=
    accLoopAux_some nc z (List.replicate nc 0, List.replicate nc 0) h
      (by simp) (by simp)
  have hsum' : b.sum = (List.replicate nc 0).sum
      + z.countP (fun pr => pr.1 == pr.2) := hsum
  have hent' : ∀ i,
      b.getD i 0 = (List.replicate nc 0).getD i 0 + bingoCount z i ∧
      s.getD i 0 = (List.replicate nc 0).getD i 0 + classCount z i := hent
  refine ⟨b, s, heq, hbl, hsl, ?_, fun i => ?_⟩
  · rw [hsum']; simp
  · have := hent' i
    rw [getD_replicate] at this
    simpa using this

theorem accLoop_entries (nc : Nat) (z : List (Nat × Nat)) (b s : List Nat)
    (h : accLoop nc z = some (b, s)) :
    (∀ pr ∈ z, pr.2 < nc) ∧ b.length = nc ∧ s.length = nc ∧
    b.sum = z.countP (fun pr => pr.1 == pr.2) ∧
    (∀ i, b.getD i 0 = bingoCount z i ∧ s.getD i 0 = classCount z i) := by
  have hin : ∀ pr ∈ z, pr.2 < nc := by
    rw [← accLoop_isSome nc z, h]; rfl
  obtain ⟨b', s', heq, hbl, hsl, hsum, hent⟩ := accLoop_some nc z hin
  have hps : (b, s) = (b', s') := Option.some.inj (h.symm.trans heq)
  have hb : b = b' := congrArg Prod.fst hps
  have hs : s = s' := congrArg Prod.snd hps
  subst hb; subst hs
  exact ⟨hin, hbl, hsl, hsum, hent⟩

/-! Helper lemmas about the run function. -/

theorem sub1_eq (n : Nat) (h1 : 1 ≤ n) (h2 : n ≤ 2 ^ 64) : sub1 n = n - 1 := by
  unfold sub1
  omega

theorem mlpackMain_validate_error (threads : Nat) (ext : Externals)
    (p : Params) (e : RunError) (he : validate p = .error e) :
    mlpackMain threads ext p = .error e := by
  unfold mlpackMain
  rw [he]

theorem mlpackMain_resolve_error (threads : Nat) (ext : Externals)
    (p : Params) (u : Unit) (e : RunError) (hv : validate p = .ok u)
    (he : resolveLabels p = .error e) :
    mlpackMain threads ext p = .error e := by
  unfold mlpackMain
  rw [hv, he]

theorem mlpackMain_ok_ok (threads : Nat) (ext : Externals) (p : Params)
    (u : Unit) (ts : Matrix) (labs : List Nat)
    (hv : validate p = .ok u) (hr : resolveLabels p = .ok (ts, labs)) :
    mlpackMain threads ext p
      = testPhase ext p (runModel threads ext p ts labs)
          (runNumClasses p labs) := by
  unfold mlpackMain
  rw [hv, hr]

theorem validate_error_of_bad_optimizer (p : Params)
    (h1 : p.optimizer ≠ "lbfgs") (h2 : p.optimizer ≠ "psgd") :
    ∃ e, validate p = .error e := by
  unfold validate
  split_ifs <;> first
    | exact ⟨_, rfl⟩
    | tauto

theorem validate_error_of_neg (p : Params)
    (h : p.lambda < 0 ∨ p.delta < 0 ∨ p.tolerance < 0 ∨ p.stepSize < 0 ∨
      p.maxIterations < 0 ∨ p.numberOfClasses < 0) :
    ∃ e, validate p = .error e := by
  unfold validate
  split_ifs with c1 c2 c3 c4 c5 c6 c7 c8
  any_goals exact ⟨_, rfl⟩
  rcases h with h | h | h | h | h | h
  exacts [absurd h c5, absurd h c7, absurd h c3, absurd h c8, absurd h c2,
    absurd h c6]

theorem accuracyPhase_error_cases (nc : Nat) (preds tls : List Nat)
    (e : RunError) (h : accuracyPhase nc preds tls = .error e) :
    e = .armaOutOfBounds ∨ e = .vectorOutOfBounds := by
  unfold accuracyPhase at h
  by_cases hlt : tls.length < preds.length
  · rw [if_pos hlt] at h
    injection h with h2
    exact Or.inl h2.symm
  · rw [if_neg hlt] at h
    cases hacc : accLoop nc (preds.zip tls) with
    | none =>
      rw [hacc] at h
      injection h with h2
      exact Or.inr h2.symm
    | some v =>
      obtain ⟨b, s⟩ := v
      rw [hacc] at h
      exact Except.noConfusion h

theorem testPhase_spec (ext : Externals) (p : Params) (model : Model)
    (nc : Nat) (tst : Matrix) (ht : p.test = some tst) :
    (testPhase ext p model nc = .error .testDimMismatch ↔
      tst.nRows ≠ sub1 model.parameters.nRows) ∧
    (tst.nRows = sub1 model.parameters.nRows →
      (∃ r, testPhase ext p model nc = .ok r) ∨
      testPhase ext p model nc = .error .testLabelsSizeMismatch ∨
      testPhase ext p model nc = .error .armaOutOfBounds ∨
      testPhase ext p model nc = .error .vectorOutOfBounds) := by
  by_cases hne : tst.nRows ≠ sub1 model.parameters.nRows
  · have hrun : testPhase ext p model nc = .error .testDimMismatch := by
      simp only [testPhase, ht]
      rw [if_pos hne]
    rw [hrun]
    exact ⟨⟨fun _ => hne, fun _ => rfl⟩, fun heq => absurd heq hne⟩
  · cases htl : p.testLabels with
    | none =>
      have hrun : testPhase ext p model nc
          = .ok ⟨if p.predictionsRequested then
                   some (ext.classifyLabels model tst) else none,
                 if p.scoreRequested then some (ext.classifyScores model tst)
                 else none, none, model⟩ := by
        simp only [testPhase, ht, htl]
        rw [if_neg hne]
      rw [hrun]
      exact ⟨⟨fun h => Except.noConfusion h, fun h => absurd h hne⟩,
        fun _ => Or.inl ⟨_, rfl⟩⟩
    | some tls =>
      by_cases hc : tst.nCols ≠ tls.length
      · have hrun : testPhase ext p model nc
            = .error .testLabelsSizeMismatch := by
          simp only [testPhase, ht, htl]
          rw [if_neg hne, if_pos hc]
        rw [hrun]
        refine ⟨⟨fun h => ?_, fun h => absurd h hne⟩,
          fun _ => Or.inr (Or.inl rfl)⟩
        injection h with h2
        exact RunError.noConfusion h2
      · cases hap : accuracyPhase nc (ext.classifyLabels model tst) tls with
        | error e =>
          have hrun : testPhase ext p model nc = .error e := by
            simp only [testPhase, ht, htl]
            rw [if_neg hne, if_neg hc, hap]
          rw [hrun]
          rcases accuracyPhase_error_cases nc (ext.classifyLabels model tst)
            tls e hap with rfl | rfl
          · refine ⟨⟨fun h => ?_, fun h => absurd h hne⟩,
              fun _ => Or.inr (Or.inr (Or.inl rfl))⟩
            injection h with h2
            exact RunError.noConfusion h2
          · refine ⟨⟨fun h => ?_, fun h => absurd h hne⟩,
              fun _ => Or.inr (Or.inr (Or.inr rfl))⟩
            injection h with h2
            exact RunError.noConfusion h2
        | ok rep =>
          have hrun : testPhase ext p model nc
              = .ok ⟨if p.predictionsRequested then
                       some (ext.classifyLabels model tst) else none,
                     if p.scoreRequested then
                       some (ext.classifyScores model tst) else none,
                     some rep, model⟩ := by
            simp only [testPhase, ht, htl]
            rw [if_neg hne, if_neg hc, hap]
          rw [hrun]
          exact ⟨⟨fun h => Except.noConfusion h, fun h => absurd h hne⟩,
            fun _ => Or.inl ⟨_, rfl⟩⟩

/-! Claim theorems. -/

/-- C1: when `number_of_classes` is unspecified (defaulted to 0) or 0, the
class count used by the program equals the number of distinct values in the
label vector (in particular 3 for labels 0,0,1,2); a positive value is used
unchanged. -/
theorem claim1_numClasses (labs : List Nat) (k : Nat) :
    NumberOfClasses 0 labs = distinctCount labs ∧
    (0 < k → NumberOfClasses k labs = k) ∧
    NumberOfClasses 0 [0, 0, 1, 2] = 3 := by
  refine ⟨?_, ?_, by decide⟩
  · unfold NumberOfClasses distinctCount
    rw [if_pos rfl, List.card_toFinset]
  · intro hk
    unfold NumberOfClasses
    rw [if_neg (Nat.pos_iff_ne_zero.mp hk)]

/-- Witness for C1 at concrete inputs. -/
theorem claim1_witness :
    NumberOfClasses 0 [0, 0, 1, 2] = distinctCount [0, 0, 1, 2] ∧
    NumberOfClasses 4 [0, 0, 1, 2] = 4 :=
  ⟨(claim1_numClasses [0, 0, 1, 2] 4).1,
   (claim1_numClasses [0, 0, 1, 2] 4).2.1 (by decide)⟩

/-- C2 as stated is false: with class count 2 and the single (matching)
prediction/test-label pair (0, 0), class 1 receives no test labels, so its
reported accuracy is the division 0/0 - NaN in the source, `none` here -
which does not lie in the interval from 0 to 1. -/
theorem claim2_counterexample :
    accLoop 2 (([0] : List Nat).zip [0]) = some ([1, 0], [1, 0]) ∧
    ¬ ∃ q : ℚ, perClassAcc [1, 0] [1, 0] 1 = some q ∧ 0 ≤ q ∧ q ≤ 1 := by
  refine ⟨rfl, ?_⟩
  rintro ⟨q, hq, -⟩
  rw [show perClassAcc [1, 0] [1, 0] 1 = none from rfl] at hq
  exact Option.noConfusion hq

/-- C2 amended: for a predictions/test-labels pair of equal length whose
tally loop completes, every per-class accuracy that is reported as a number
lies in the interval from 0 to 1 (a class with no test labels yields the NaN
division instead), the aggregate accuracy - a number whenever there is at
least one prediction - lies in that interval, and the per-class correct
counts sum to the aggregate correct count, the number of indices where the
prediction equals the label. -/
theorem claim2_accuracy (nc : Nat) (preds labs b s : List Nat)
    (hlen : preds.length = labs.length)
    (hacc : accLoop nc (preds.zip labs) = some (b, s)) :
    (∀ i q, perClassAcc b s i = some q → 0 ≤ q ∧ q ≤ 1) ∧
    (∀ i, i < nc → s.getD i 0 ≠ 0 → (perClassAcc b s i).isSome = true) ∧
    (∀ q, aggregateAcc b.sum preds.length = some q → 0 ≤ q ∧ q ≤ 1) ∧
    b.sum = (preds.zip labs).countP (fun pr => pr.1 == pr.2) := by
  obtain ⟨hin, hbl, hsl, hsum, hent⟩ :=
    accLoop_entries nc (preds.zip labs) b s hacc
  have hble : ∀ i, b.getD i 0 ≤ s.getD i 0 := by
    intro i
    rw [(hent i).1, (hent i).2]
    refine List.countP_mono_left (fun pr _ hpr => ?_)
    simp only [Bool.and_eq_true] at hpr
    exact hpr.2
  refine ⟨?_, ?_, ?_, hsum⟩
  · intro i q hq
    by_cases hz : s.getD i 0 = 0
    · unfold perClassAcc at hq
      rw [if_pos hz] at hq
      exact Option.noConfusion hq
    · unfold perClassAcc at hq
      rw [if_neg hz] at hq
      obtain rfl : ((b.getD i 0 : ℚ) / (s.getD i 0 : ℚ)) = q :=
        Option.some.inj hq
      have hpos : (0 : ℚ) < (s.getD i 0 : ℚ) :=
        Nat.cast_pos.mpr (Nat.pos_of_ne_zero hz)
      constructor
      · positivity
      · rw [div_le_one hpos]
        exact_mod_cast hble i
  · intro i _ hnz
    unfold perClassAcc
    rw [if_neg hnz]
    rfl
  · intro q hq
    unfold aggregateAcc at hq
    by_cases hz : preds.length = 0
    · rw [if_pos hz] at hq
      exact Option.noConfusion hq
    · rw [if_neg hz] at hq
      obtain rfl : ((b.sum : ℚ) / (preds.length : ℚ)) = q :=
        Option.some.inj hq
      have hpos : (0 : ℚ) < (preds.length : ℚ) :=
        Nat.cast_pos.mpr (Nat.pos_of_ne_zero hz)
      constructor
      · positivity
      · rw [div_le_one hpos]
        have hle : b.sum ≤ preds.length := by
          rw [hsum]
          have h1 := List.countP_le_length
            (fun pr : Nat × Nat => pr.1 == pr.2) (l := preds.zip labs)
          have h2 := List.length_zip preds labs
          omega
        exact_mod_cast hle

/-- Witness for C2 (amended) at a concrete three-point pair. -/
theorem claim2_witness :
    (∃ q : ℚ, perClassAcc [1, 1] [2, 1] 0 = some q ∧ 0 ≤ q ∧ q ≤ 1) ∧
    ([1, 1] : List Nat).sum
      = (([0, 1, 1] : List Nat).zip [0, 1, 0]).countP
          (fun pr => pr.1 == pr.2) := by
  have h := claim2_accuracy 2 [0, 1, 1] [0, 1, 0] [1, 1] [2, 1] rfl (by rfl)
  refine ⟨?_, h.2.2.2⟩
  have hq : perClassAcc [1, 1] [2, 1] 0 = some ((1 : ℚ) / 2) := by
    norm_num [perClassAcc, List.getD_cons_zero]
  exact ⟨(1 : ℚ) / 2, hq, h.1 0 ((1 : ℚ) / 2) hq⟩

/-- C3: in a run that passes validation and label resolution and supplies a
test matrix, the run ends in the dimensionality `Log::Fatal` exactly when
the test row count differs from the model parameter-matrix row count minus
one (the intercept row); when they are equal, classification proceeds - the
run continues past the check, ending in success or in one of the strictly
later accuracy-block outcomes. -/
theorem claim3_testDim (threads : Nat) (ext : Externals) (p : Params)
    (ts tst : Matrix) (labs : List Nat)
    (hv : validate p = .ok ()) (hr : resolveLabels p = .ok (ts, labs))
    (ht : p.test = some tst)
    (h1 : 1 ≤ (runModel threads ext p ts labs).parameters.nRows)
    (h2 : (runModel threads ext p ts labs).parameters.nRows ≤ 2 ^ 64) :
    (mlpackMain threads ext p = .error .testDimMismatch ↔
      tst.nRows ≠ (runModel threads ext p ts labs).parameters.nRows - 1) ∧
    (tst.nRows = (runModel threads ext p ts labs).parameters.nRows - 1 →
      (∃ r, mlpackMain threads ext p = .ok r) ∨
      mlpackMain threads ext p = .error .testLabelsSizeMismatch ∨
      mlpackMain threads ext p = .error .armaOutOfBounds ∨
      mlpackMain threads ext p = .error .vectorOutOfBounds) := by
  have hms := mlpackMain_ok_ok threads ext p () ts labs hv hr
  have hspec := testPhase_spec ext p (runModel threads ext p ts labs)
    (runNumClasses p labs) tst ht
  rw [sub1_eq _ h1 h2] at hspec
  rw [hms]
  exact hspec

/-- Witness for C3: concrete loaded-model run with matching dimensions. -/
theorem claim3_witness :
    (mlpackMain 1 constExternals dimParams = .error .testDimMismatch ↔
      (Matrix.mk [[5]]).nRows
        ≠ (runModel 1 constExternals dimParams ⟨[]⟩ []).parameters.nRows
            - 1) ∧
    ((Matrix.mk [[5]]).nRows
        = (runModel 1 constExternals dimParams ⟨[]⟩ []).parameters.nRows
            - 1 →
      (∃ r, mlpackMain 1 constExternals dimParams = .ok r) ∨
      mlpackMain 1 constExternals dimParams
        = .error .testLabelsSizeMismatch ∨
      mlpackMain 1 constExternals dimParams = .error .armaOutOfBounds ∨
      mlpackMain 1 constExternals dimParams = .error .vectorOutOfBounds) :=
  claim3_testDim 1 constExternals dimParams ⟨[]⟩ ⟨[[5]]⟩ [] rfl rfl rfl
    (by decide) (by decide)

/-- C4: a separate labels vector whose count differs from the training
column count, or test labels whose count differs from the test column
count, leads to `Log::Fatal` - before training (the outcome does not depend
on the external routines) and before any accuracy is computed,
respectively. -/
theorem claim4_countChecks (p : Params) (threads : Nat)
    (ext ext2 : Externals) :
    (∀ ts ls, p.training = some ts → p.labels = some ls →
      ls.length ≠ ts.nCols →
      isFatal (mlpackMain threads ext p) = true ∧
      mlpackMain threads ext p = mlpackMain threads ext2 p) ∧
    (∀ tst tls, p.test = some tst → p.testLabels = some tls →
      tls.length ≠ tst.nCols →
      isFatal (mlpackMain threads ext p) = true) := by
  constructor
  · intro ts ls ht hl hne
    cases hval : validate p with
    | error e =>
      rw [mlpackMain_validate_error threads ext p e hval,
        mlpackMain_validate_error threads ext2 p e hval]
      exact ⟨rfl, rfl⟩
    | ok u =>
      have hres : resolveLabels p = .error .labelSizeMismatch := by
        simp only [resolveLabels, ht, hl]
        rw [if_pos (Ne.symm hne)]
      rw [mlpackMain_resolve_error threads ext p u .labelSizeMismatch hval
          hres,
        mlpackMain_resolve_error threads ext2 p u .labelSizeMismatch hval
          hres]
      exact ⟨rfl, rfl⟩
  · intro tst tls ht htl hne
    cases hval : validate p with
    | error e =>
      rw [mlpackMain_validate_error threads ext p e hval]; rfl
    | ok u =>
      cases hres : resolveLabels p with
      | error e =>
        rw [mlpackMain_resolve_error threads ext p u e hval hres]; rfl
      | ok pr =>
        obtain ⟨ts2, labs2⟩ := pr
        rw [mlpackMain_ok_ok threads ext p u ts2 labs2 hval hres]
        by_cases hdim : tst.nRows
            ≠ sub1 (runModel threads ext p ts2 labs2).parameters.nRows
        · have hstep : testPhase ext p (runModel threads ext p ts2 labs2)
              (runNumClasses p labs2) = .error .testDimMismatch := by
            simp only [testPhase, ht]
            rw [if_pos hdim]
          rw [hstep]; rfl
        · have hstep : testPhase ext p (runModel threads ext p ts2 labs2)
              (runNumClasses p labs2) = .error .testLabelsSizeMismatch := by
            simp only [testPhase, ht, htl]
            rw [if_neg hdim, if_pos (Ne.symm hne)]
          rw [hstep]; rfl

/-- Witness for C4: concrete run with both count mismatches. -/
theorem claim4_witness :
    isFatal (mlpackMain 1 constExternals mismatchParams) = true ∧
    mlpackMain 1 constExternals mismatchParams
      = mlpackMain 1 constExternals mismatchParams := by
  have hA := (claim4_countChecks mismatchParams 1 constExternals
    constExternals).1 trainMat [0] rfl rfl (by decide)
  have hB := (claim4_countChecks mismatchParams 1 constExternals
    constExternals).2 ⟨[[5]]⟩ [0, 1] rfl rfl (by decide)
  exact ⟨hB, hA.2⟩

/-- C5: with a training matrix and no separate labels parameter, fewer than
2 rows is `Log::Fatal` (independently of the external routines); otherwise
the labels are the last row converted to non-negative integers, that row is
shed, the shed matrix has exactly one fewer row, and it is the matrix
handed to training. -/
theorem claim5_lastRowLabels (p : Params) (ts : Matrix) (threads : Nat)
    (ext : Externals) (ht : p.training = some ts) (hl : p.labels = none) :
    (ts.nRows < 2 → isFatal (mlpackMain threads ext p) = true ∧
      ∀ ext2 : Externals,
        mlpackMain threads ext p = mlpackMain threads ext2 p) ∧
    (2 ≤ ts.nRows →
      resolveLabels p = .ok (ts.shedLastRow, ts.lastRow.map ratToNat) ∧
      ts.shedLastRow.nRows + 1 = ts.nRows ∧
      (validate p = .ok () → p.optimizer = "lbfgs" → p.test = none →
        mlpackMain threads ext p = .ok ⟨none, none, none,
          ext.train
            { p.inputModel.getD ext.defaultModel with
                lambda := p.lambda
                delta := p.delta
                fitIntercept := !p.noIntercept
                numClasses := runNumClasses p (ts.lastRow.map ratToNat) }
            ts.shedLastRow (ts.lastRow.map ratToNat)
            (runNumClasses p (ts.lastRow.map ratToNat))
            (.lbfgs p.maxIterations.toNat p.tolerance)⟩)) := by
  constructor
  · intro hlt
    have hres : resolveLabels p = .error .tooFewRows := by
      simp only [resolveLabels, ht, hl]
      rw [if_pos hlt]
    cases hval : validate p with
    | error e =>
      refine ⟨by rw [mlpackMain_validate_error threads ext p e hval]; rfl,
        fun ext2 => ?_⟩
      rw [mlpackMain_validate_error threads ext p e hval,
        mlpackMain_validate_error threads ext2 p e hval]
    | ok u =>
      refine ⟨by rw [mlpackMain_resolve_error threads ext p u .tooFewRows
        hval hres]; rfl, fun ext2 => ?_⟩
      rw [mlpackMain_resolve_error threads ext p u .tooFewRows hval hres,
        mlpackMain_resolve_error threads ext2 p u .tooFewRows hval hres]
  · intro hge
    have hres : resolveLabels p
        = .ok (ts.shedLastRow, ts.lastRow.map ratToNat) := by
      simp only [resolveLabels, ht, hl]
      rw [if_neg (not_lt.mpr hge)]
    refine ⟨hres, ?_, ?_⟩
    · have hd : ts.shedLastRow.nRows = ts.rows.length - 1 := by
        unfold Matrix.shedLastRow Matrix.nRows
        exact List.length_dropLast ts.rows
      have hn : ts.nRows = ts.rows.length := rfl
      omega
    · intro hv ho hte
      rw [mlpackMain_ok_ok threads ext p () ts.shedLastRow
        (ts.lastRow.map ratToNat) hv hres]
      simp only [testPhase, hte]
      simp only [runModel, trainedModel, ht, Option.isSome_some, ho,
        if_true]

/-- Witness for C5 at concrete training matrices (2 rows, then 1 row). -/
theorem claim5_witness :
    resolveLabels trainParams
      = .ok (trainMat.shedLastRow, trainMat.lastRow.map ratToNat) ∧
    trainMat.shedLastRow.nRows + 1 = trainMat.nRows ∧
    mlpackMain 1 constExternals trainParams = .ok ⟨none, none, none,
      constExternals.train
        { trainParams.inputModel.getD constExternals.defaultModel with
            lambda := trainParams.lambda
            delta := trainParams.delta
            fitIntercept := !trainParams.noIntercept
            numClasses := runNumClasses trainParams
              (trainMat.lastRow.map ratToNat) }
        trainMat.shedLastRow (trainMat.lastRow.map ratToNat)
        (runNumClasses trainParams (trainMat.lastRow.map ratToNat))
        (.lbfgs trainParams.maxIterations.toNat trainParams.tolerance)⟩ ∧
    isFatal (mlpackMain 1 constExternals
      { baseParams with training := some ⟨[[1, 2]]⟩ }) = true := by
  have h2 := (claim5_lastRowLabels trainParams trainMat 1 constExternals
    rfl rfl).2 (by decide)
  have h1 := (claim5_lastRowLabels
    { baseParams with training := some ⟨[[1, 2]]⟩ } ⟨[[1, 2]]⟩ 1
    constExternals rfl rfl).1 (by decide)
  exact ⟨h2.1, h2.2.1, h2.2.2 rfl rfl rfl, h1.1⟩

/-- C6: any optimizer string other than lbfgs or psgd is `Log::Fatal`
before any training or classification - the outcome does not depend on the
external routines or the thread count. -/
theorem claim6_badOptimizer (p : Params) (threads threads2 : Nat)
    (ext ext2 : Externals) (h1 : p.optimizer ≠ "lbfgs")
    (h2 : p.optimizer ≠ "psgd") :
    isFatal (mlpackMain threads ext p) = true ∧
    mlpackMain threads ext p = mlpackMain threads2 ext2 p := by
  obtain ⟨e, he⟩ := validate_error_of_bad_optimizer p h1 h2
  rw [mlpackMain_validate_error threads ext p e he,
    mlpackMain_validate_error threads2 ext2 p e he]
  exact ⟨rfl, rfl⟩

/-- Witness for C6 with the optimizer string sgd. -/
theorem claim6_witness :
    isFatal (mlpackMain 1 constExternals
      { baseParams with optimizer := "sgd" }) = true ∧
    mlpackMain 1 constExternals { baseParams with optimizer := "sgd" }
      = mlpackMain 2 constExternals { baseParams with optimizer := "sgd" } :=
  claim6_badOptimizer { baseParams with optimizer := "sgd" } 1 2
    constExternals constExternals (by decide) (by decide)

/-- C7: a negative lambda, delta, tolerance or step_size, or a negative
max_iterations or number_of_classes, is `Log::Fatal`; the value zero passes
every one of these range checks. -/
theorem claim7_paramRanges (p : Params) (threads : Nat) (ext : Externals) :
    ((p.lambda < 0 ∨ p.delta < 0 ∨ p.tolerance < 0 ∨ p.stepSize < 0 ∨
        p.maxIterations < 0 ∨ p.numberOfClasses < 0) →
      isFatal (mlpackMain threads ext p) = true) ∧
    (p.lambda = 0 → p.delta = 0 → p.tolerance = 0 → p.stepSize = 0 →
      p.maxIterations = 0 → p.numberOfClasses = 0 →
      (p.optimizer = "lbfgs" ∨ p.optimizer = "psgd") →
      (p.training.isSome = true ∨ p.inputModel.isSome = true) →
      validate p = .ok ()) := by
  constructor
  · intro h
    obtain ⟨e, he⟩ := validate_error_of_neg p h
    rw [mlpackMain_validate_error threads ext p e he]
    rfl
  · intro hlam hdel htol hstep hmax hnoc hopt hone
    have c1 : ¬(p.training = none ∧ p.inputModel = none) := by
      rintro ⟨ha, hb⟩
      rcases hone with h | h
      · rw [ha] at h; simp at h
      · rw [hb] at h; simp at h
    unfold validate
    rw [if_neg c1, if_neg (by rw [hmax]; exact lt_irrefl 0),
      if_neg (by rw [htol]; exact lt_irrefl 0),
      if_neg (not_not_intro hopt),
      if_neg (by rw [hlam]; exact lt_irrefl 0),
      if_neg (by rw [hnoc]; exact lt_irrefl 0),
      if_neg (by rw [hdel]; exact lt_irrefl 0),
      if_neg (by rw [hstep]; exact lt_irrefl 0)]

/-- Witness for C7: a negative lambda is fatal; the all-zero setting passes
validation. -/
theorem claim7_witness :
    isFatal (mlpackMain 1 constExternals
      { baseParams with
          lambda := -1
          inputModel := some cexModel }) = true ∧
    validate { baseParams with inputModel := some cexModel } = .ok () := by
  constructor
  · exact (claim7_paramRanges
      { baseParams with
          lambda := -1
          inputModel := some cexModel } 1 constExternals).1
      (Or.inl (by decide))
  · exact (claim7_paramRanges { baseParams with inputModel := some cexModel }
      1 constExternals).2 rfl rfl rfl rfl rfl rfl (Or.inl rfl) (Or.inr rfl)

/-- C8: class-count derivation and the accuracy tallies are
order-independent - a permutation of the labels yields the same class
count, and a joint permutation of the prediction/test-label pairs yields
the same tally outcome. -/
theorem claim8_permInvariant (k nc : Nat) (labs labs2 : List Nat)
    (z z2 : List (Nat × Nat)) (h1 : labs.Perm labs2) (h2 : z.Perm z2) :
    NumberOfClasses k labs = NumberOfClasses k labs2 ∧
    accLoop nc z = accLoop nc z2 := by
  constructor
  · unfold NumberOfClasses
    rw [List.toFinset_eq_of_perm labs labs2 h1]
  · by_cases hin : ∀ pr ∈ z, pr.2 < nc
    · have hin2 : ∀ pr ∈ z2, pr.2 < nc :=
        fun pr hpr => hin pr (h2.mem_iff.mpr hpr)
      obtain ⟨b, s, heq, hbl, hsl, hsum, hent⟩ := accLoop_some nc z hin
      obtain ⟨b2, s2, heq2, hbl2, hsl2, hsum2, hent2⟩ :=
        accLoop_some nc z2 hin2
      have hb : b = b2 := by
        refine eq_of_getD b b2 (hbl.trans hbl2.symm) (fun i => ?_)
        rw [(hent i).1, (hent2 i).1]
        exact List.Perm.countP_eq _ h2
      have hs : s = s2 := by
        refine eq_of_getD s s2 (hsl.trans hsl2.symm) (fun i => ?_)
        rw [(hent i).2, (hent2 i).2]
        exact List.Perm.countP_eq _ h2
      rw [heq, heq2, hb, hs]
    · have hin2 : ¬ ∀ pr ∈ z2, pr.2 < nc :=
        fun hc => hin (fun pr hpr => hc pr (h2.mem_iff.mp hpr))
      have e1 : accLoop nc z = none := by
        cases hz : accLoop nc z with
        | none => rfl
        | some v =>
          exact absurd ((accLoop_isSome nc z).mp (by rw [hz]; rfl)) hin
      have e2 : accLoop nc z2 = none := by
        cases hz : accLoop nc z2 with
        | none => rfl
        | some v =>
          exact absurd ((accLoop_isSome nc z2).mp (by rw [hz]; rfl)) hin2
      rw [e1, e2]

/-- Witness for C8 at concrete permutations. -/
theorem claim8_witness :
    NumberOfClasses 0 [0, 1] = NumberOfClasses 0 [1, 0] ∧
    accLoop 2 [(0, 0), (1, 1)] = accLoop 2 [(1, 1), (0, 0)] :=
  claim8_permInvariant 0 2 [0, 1] [1, 0] [(0, 0), (1, 1)] [(1, 1), (0, 0)]
    (by decide) (by decide)

/-- C9 as stated is false: a run using only input_model (no training data)
with `number_of_classes` unspecified derives class count 0 from the empty
label vector, passes the test-label count check and reaches the accuracy
computation, where the first tally-loop subscript into the length-0 counter
vectors is already out of bounds (undefined behaviour in the source). -/
theorem claim9_counterexample :
    mlpackMain 1 constExternals modelOnlyParams
      = .error .vectorOutOfBounds ∧
    runNumClasses modelOnlyParams [] = 0 :=
  ⟨rfl, rfl⟩

/-- C9 amended: the tally loop's counter-array subscripts are in bounds
exactly when every test label is below the derived class count; when the
loop completes, the per-class divisor for class i counts the test labels
equal to i, so it is nonzero exactly when class i occurs among the test
labels.  With only input_model and `number_of_classes` unspecified the
derived count is 0, so any test label is out of bounds. -/
theorem claim9_bounds (nc : Nat) (z : List (Nat × Nat)) :
    ((accLoop nc z).isSome = true ↔ ∀ pr ∈ z, pr.2 < nc) ∧
    (∀ b s, accLoop nc z = some (b, s) → ∀ i, i < nc →
      (s.getD i 0 ≠ 0 ↔ ∃ pr ∈ z, pr.2 = i)) := by
  refine ⟨accLoop_isSome nc z, ?_⟩
  intro b s h i hi
  obtain ⟨hin, hbl, hsl, hsum, hent⟩ := accLoop_entries nc z b s h
  rw [(hent i).2]
  unfold classCount
  constructor
  · intro hnz
    obtain ⟨a, ha, hpa⟩ := List.countP_pos_iff.mp (Nat.pos_of_ne_zero hnz)
    exact ⟨a, ha, by simpa using hpa⟩
  · rintro ⟨a, ha, hai⟩
    exact Nat.pos_iff_ne_zero.mp
      (List.countP_pos_iff.mpr ⟨a, ha, by simp [hai]⟩)

/-- Witness for C9 (amended) at a concrete in-bounds pair list. -/
theorem claim9_witness :
    ((accLoop 1 [(0, 0)]).isSome = true ↔ ∀ pr ∈ [(0, 0)], pr.2 < 1) ∧
    (([1] : List Nat).getD 0 0 ≠ 0 ↔ ∃ pr ∈ [(0, 0)], pr.2 = 0) :=
  ⟨(claim9_bounds 1 [(0, 0)]).1,
   (claim9_bounds 1 [(0, 0)]).2 [1] [1] rfl 0 (by decide)⟩

/-- C10 as stated is false: with the lbfgs optimizer, two runs differing
only in step_size do not always train identically, because the step_size
range check runs regardless of the optimizer - a negative step_size is
`Log::Fatal` while a nonnegative one trains. -/
theorem claim10_counterexample :
    mlpackMain 1 constExternals { trainParams with stepSize := -1 }
      ≠ mlpackMain 1 constExternals trainParams := by
  intro h
  have h1 : mlpackMain 1 constExternals { trainParams with stepSize := -1 }
      = .error .badStepSize := rfl
  have h2 : mlpackMain 1 constExternals trainParams
      = .ok ⟨none, none, none, ⟨0, 0, true, 2, ⟨[]⟩⟩⟩ := rfl
  rw [h1, h2] at h
  exact Except.noConfusion h

/-- C10 amended: for nonnegative step_size values, step_size and the
shuffle flag have no effect on an lbfgs run - the L-BFGS configuration is
built only from max_iterations and tolerance, and two runs differing only
in step_size or shuffle produce identical outcomes. -/
theorem claim10_lbfgsFrame (p : Params) (s2 : ℚ) (b2 : Bool)
    (threads : Nat) (ext : Externals) (ho : p.optimizer = "lbfgs")
    (hs1 : 0 ≤ p.stepSize) (hs2 : 0 ≤ s2) :
    mlpackMain threads ext { p with stepSize := s2, shuffle := b2 }
      = mlpackMain threads ext p := by
  cases p with
  | mk tr lbl lam del noc ni opt tol mi ss sh im te tl sr pq omq =>
    change opt = "lbfgs" at ho
    change (0 : ℚ) ≤ ss at hs1
    subst ho
    have e1 : ¬(s2 < 0) := not_lt.mpr hs2
    have e2 : ¬(ss < 0) := not_lt.mpr hs1
    simp [mlpackMain, validate, resolveLabels, runNumClasses, runModel,
      trainedModel, testPhase, accuracyPhase, e1, e2]

/-- Witness for C10 (amended): changing step_size from 0 to 5 and flipping
the shuffle flag leaves a concrete lbfgs training run unchanged. -/
theorem claim10_witness :
    mlpackMain 1 constExternals
      { trainParams with stepSize := 5, shuffle := true }
      = mlpackMain 1 constExternals trainParams :=
  claim10_lbfgsFrame trainParams 5 true 1 constExternals rfl (by decide)
    (by decide)

end LinearSVMMain
